import Mathlib

/-!
Verification of the yarrrml-to-rml-service core (src/index.js).

The JavaScript source is shallowly embedded: JS strings are Lean `String`s
(with the stderr accumulator modelled at the `List Char` level, a JS
string being a sequence of code units), platform capabilities (the WHATWG
URL parser, `fetch`, `JSON.parse`, the child process, the filesystem) are
modelled as explicit input data, and the request handler becomes a pure
function from request + environment to a response together with a
chronological trace of its side effects.
-/

/-- Model of the whitespace class trimmed by JS `String.prototype.trim`
(ASCII whitespace plus NBSP and the BOM; exotic Unicode space separators
are not needed by any claim). -/
def isJsWhitespace (c : Char) : Bool :=
  c = ' ' || c = '\t' || c = '\n' || c = '\r' ||
  c = '\x0b' || c = '\x0c' || c = ' ' || c = '﻿'

/-- Character-level trim: drop leading and trailing whitespace. -/
def trimChars (l : List Char) : List Char :=
  ((l.dropWhile isJsWhitespace).reverse.dropWhile isJsWhitespace).reverse

/-- Embedding of JS `s.trim()`. -/
def jsTrim (s : String) : String :=
  String.mk (trimChars s.data)

/-- The character class `[A-Za-z0-9._-]` of the sanitizer's regex. -/
def validFilenameChar (c : Char) : Bool :=
  c.isAlpha || c.isDigit || c = '.' || c = '_' || c = '-'

/-- Embedding of JS `s.includes("..")`: some adjacent pair of characters
is two dots. -/
def hasDotDot : List Char → Bool
  | [] => false
  | [_] => false
  | a :: b :: rest => (a == '.' && b == '.') || hasDotDot (b :: rest)

/-- `sanitizeFilename(name, fallback)` from src/index.js:66-73.  The
caller always passes a string (absent or non-string hints become `""`
at the call site), so the `!name || typeof name !== "string"` guard
reduces to the empty-string test. -/
def sanitizeFilename (name : String) (fallback : String) : String :=
  if name = "" then fallback
  else
    let trimmed := jsTrim name
    if trimmed = "" then fallback
    else if '/' ∈ trimmed.data ∨ '\\' ∈ trimmed.data ∨ hasDotDot trimmed.data then
      fallback
    else if trimmed.data.all validFilenameChar then trimmed
    else fallback

/-- The acceptance condition of the sanitizer as the claim words it: the
candidate is a non-empty string, its trimmed form is non-empty, contains
none of `/`, `\`, `..`, and matches `[A-Za-z0-9._-]+` exactly. -/
def goodCandidate (name : String) : Prop :=
  name ≠ "" ∧ jsTrim name ≠ "" ∧
  '/' ∉ (jsTrim name).data ∧ '\\' ∉ (jsTrim name).data ∧
  hasDotDot (jsTrim name).data = false ∧
  (jsTrim name).data.all validFilenameChar = true

instance (name : String) : Decidable (goodCandidate name) := by
  unfold goodCandidate; infer_instance

section TrimLemmas

lemma mem_dropWhile_of_mem {c : Char} {p : Char → Bool} :
    ∀ {l : List Char}, c ∈ l → p c = false → c ∈ l.dropWhile p
  | [], h, _ => absurd h (List.not_mem_nil c)
  | a :: t, h, hpc => by
    by_cases hpa : p a = true
    · rw [List.dropWhile_cons_of_pos hpa]
      rcases List.mem_cons.mp h with rfl | ht
      · rw [hpa] at hpc; exact absurd hpc (by simp)
      · exact mem_dropWhile_of_mem ht hpc
    · rw [List.dropWhile_cons_of_neg hpa]
      exact h

lemma mem_trimChars_of_mem {c : Char} {l : List Char}
    (h : c ∈ l) (hpc : isJsWhitespace c = false) : c ∈ trimChars l := by
  unfold trimChars
  rw [List.mem_reverse]
  exact mem_dropWhile_of_mem
    (by rw [List.mem_reverse]; exact mem_dropWhile_of_mem h hpc) hpc

lemma mem_trim_of_mem {c : Char} {s : String}
    (h : c ∈ s.data) (hpc : isJsWhitespace c = false) :
    c ∈ (jsTrim s).data :=
  mem_trimChars_of_mem h hpc

/-- `hasDotDot` holds exactly when the list splits around two adjacent dots. -/
lemma hasDotDot_iff : ∀ (l : List Char),
    hasDotDot l = true ↔ ∃ l₁ l₂, l = l₁ ++ '.' :: '.' :: l₂
  | [] => by simp [hasDotDot]
  | [a] => by
    constructor
    · intro h; exact absurd h (by simp [hasDotDot])
    · rintro ⟨l₁, l₂, h⟩
      exfalso
      have hlen := congrArg List.length h
      simp only [List.length_append, List.length_cons, List.length_nil] at hlen
      omega
  | a :: b :: t => by
    rw [show hasDotDot (a :: b :: t) =
        ((a == '.' && b == '.') || hasDotDot (b :: t)) from rfl]
    constructor
    · intro h
      rcases Bool.or_eq_true_iff.mp h with h | h
      · obtain ⟨ha, hb⟩ := Bool.and_eq_true_iff.mp h
        exact ⟨[], t, by rw [eq_of_beq ha, eq_of_beq hb]; rfl⟩
      · obtain ⟨l₁, l₂, hl⟩ := (hasDotDot_iff (b :: t)).mp h
        exact ⟨a :: l₁, l₂, by rw [List.cons_append, ← hl]⟩
    · rintro ⟨l₁, l₂, hl⟩
      match l₁, hl with
      | [], hl =>
        obtain ⟨rfl, rfl, rfl⟩ :
            a = '.' ∧ b = '.' ∧ t = l₂ := by simpa using hl
        simp
      | c :: l₁, hl =>
        have ht : b :: t = l₁ ++ '.' :: '.' :: l₂ := by
          simpa using congrArg List.tail hl
        have := (hasDotDot_iff (b :: t)).mpr ⟨l₁, l₂, ht⟩
        simp [this]

lemma hasDotDot_reverse {l : List Char} (h : hasDotDot l = true) :
    hasDotDot l.reverse = true := by
  rcases (hasDotDot_iff l).mp h with ⟨l₁, l₂, rfl⟩
  refine (hasDotDot_iff _).mpr ⟨l₂.reverse, l₁.reverse, ?_⟩
  simp

lemma hasDotDot_cons_of_ne (a : Char) (t : List Char) (ha : a ≠ '.') :
    hasDotDot (a :: t) = hasDotDot t := by
  cases t with
  | nil => simp [hasDotDot]
  | cons b t' => simp [hasDotDot, ha]

lemma hasDotDot_dropWhile {l : List Char}
    (h : hasDotDot l = true) :
    hasDotDot (l.dropWhile isJsWhitespace) = true := by
  induction l with
  | nil => simp [hasDotDot] at h
  | cons a t ih =>
    by_cases hpa : isJsWhitespace a = true
    · rw [List.dropWhile_cons_of_pos hpa]
      have ha : a ≠ '.' := by
        intro hcontra; subst hcontra; simp [isJsWhitespace] at hpa
      rw [hasDotDot_cons_of_ne a t ha] at h
      exact ih h
    · rw [List.dropWhile_cons_of_neg hpa]
      exact h

lemma hasDotDot_trim_of_hasDotDot {s : String}
    (h : hasDotDot s.data = true) : hasDotDot (jsTrim s).data = true := by
  show hasDotDot (trimChars s.data) = true
  unfold trimChars
  exact hasDotDot_reverse (hasDotDot_dropWhile (hasDotDot_reverse (hasDotDot_dropWhile h)))

end TrimLemmas

/-- C8: `sanitizeFilename` is pure and total (a Lean function); it returns
the trimmed candidate exactly when the candidate satisfies the acceptance
condition (non-empty, trim non-empty, no `/` `\` `..`, matches
`[A-Za-z0-9._-]+`), and the fallback otherwise; in particular, any
candidate containing `/`, `\` or `..` yields the fallback, never the
candidate's name. -/
theorem claim_C8_sanitizeFilename (name fallback : String) :
    (goodCandidate name → sanitizeFilename name fallback = jsTrim name) ∧
    (¬ goodCandidate name → sanitizeFilename name fallback = fallback) ∧
    ('/' ∈ name.data ∨ '\\' ∈ name.data ∨ hasDotDot name.data = true →
      sanitizeFilename name fallback = fallback) := by
  refine ⟨?_, ?_, ?_⟩
  · rintro ⟨h1, h2, ha, hb, hc, hd⟩
    simp [sanitizeFilename, h1, h2, ha, hb, hc, hd]
  · intro hng
    unfold sanitizeFilename
    by_cases h1 : name = ""
    · simp [h1]
    · by_cases h2 : jsTrim name = ""
      · simp [h1, h2]
      · by_cases h3 : '/' ∈ (jsTrim name).data ∨ '\\' ∈ (jsTrim name).data
            ∨ hasDotDot (jsTrim name).data = true
        · simp [h1, h2, h3]
        · push_neg at h3
          obtain ⟨ha, hb, hcne⟩ := h3
          have hc : hasDotDot (jsTrim name).data = false := by simpa using hcne
          by_cases h4 : (jsTrim name).data.all validFilenameChar = true
          · exact absurd ⟨h1, h2, ha, hb, hc, h4⟩ hng
          · simp [h1, h2, ha, hb, hc, h4]
  · intro h
    have key : '/' ∈ (jsTrim name).data ∨ '\\' ∈ (jsTrim name).data
        ∨ hasDotDot (jsTrim name).data = true := by
      rcases h with h | h | h
      · exact Or.inl (mem_trim_of_mem h (by decide))
      · exact Or.inr (Or.inl (mem_trim_of_mem h (by decide)))
      · exact Or.inr (Or.inr (hasDotDot_trim_of_hasDotDot h))
    unfold sanitizeFilename
    by_cases h1 : name = ""
    · simp [h1]
    · by_cases h2 : jsTrim name = ""
      · simp [h1, h2]
      · simp [h1, h2, key]

/-- C8 witness: concrete evaluations through the theorem. -/
theorem claim_C8_sanitizeFilename_witness :
    (goodCandidate " notes.txt " ∧
      sanitizeFilename " notes.txt " "data.json" = jsTrim " notes.txt ") ∧
    (hasDotDot "../etc".data = true ∧
      sanitizeFilename "../etc" "data.json" = "data.json") :=
  ⟨⟨by decide, (claim_C8_sanitizeFilename " notes.txt " "data.json").1 (by decide)⟩,
    ⟨by decide,
      (claim_C8_sanitizeFilename "../etc" "data.json").2.2 (Or.inr (Or.inr (by decide)))⟩⟩

/-! ## URL validation and the host allow-list (src/index.js:46-63)

The WHATWG `new URL(u)` platform parser is modelled as an oracle: each
resource reference carries the parse result for its (trimmed) URL string,
`none` meaning the constructor throws. -/

/-- The parts of a parsed WHATWG URL that the service reads. -/
structure UrlM where
  protocol : String
  hostname : String
deriving DecidableEq

/-- `isHttpUrl(u)` from src/index.js:46-53, over the parse oracle: parse
failure is caught and yields `false`. -/
def isHttpUrl (parsed : Option UrlM) : Bool :=
  match parsed with
  | none => false
  | some url => url.protocol = "http:" || url.protocol = "https:"

/-- Embedding of JS `s.split(",")` (single-character separator; empty
fields are preserved, and `""` splits to `[""]`, as in JS). -/
def splitCommaAux : List Char → List Char → List String
  | [], acc => [String.mk acc.reverse]
  | c :: rest, acc =>
    if c = ',' then String.mk acc.reverse :: splitCommaAux rest []
    else splitCommaAux rest (c :: acc)

def splitComma (s : String) : List String :=
  splitCommaAux s.data []

/-- The allow-list computed from `ALLOWED_FETCH_HOSTS` at each call:
`split(",").map(trim).filter(Boolean)` (src/index.js:57-60). -/
def parseAllowList (cfg : String) : List String :=
  ((splitComma cfg).map jsTrim).filter (fun s => s ≠ "")

/-- `isAllowedHost(u)` from src/index.js:56-63.  When the allow-list is
non-empty the code evaluates `new URL(u).hostname`; a parse failure there
would escape to the caller, which the model records as `none`. -/
def isAllowedHost (cfg : String) (parsed : Option UrlM) : Option Bool :=
  let allow := parseAllowList cfg
  if allow.length = 0 then some true
  else
    match parsed with
    | none => none
    | some url => some (allow.contains url.hostname)

/-- C9: for every URL (i.e. every string the URL parser accepts),
`isAllowedHost` returns a boolean and never escapes an error; with an
empty allow-list it returns `true` for every URL, and with a non-empty
allow-list it returns `true` iff the URL's hostname exactly equals one of
the trimmed allow-list entries. -/
theorem claim_C9_isAllowedHost (cfg : String) (u : UrlM)
    (hhost : u.hostname ≠ "") :
    (isAllowedHost cfg (some u)).isSome = true ∧
    (parseAllowList cfg = [] → isAllowedHost cfg (some u) = some true) ∧
    (parseAllowList cfg ≠ [] →
      (isAllowedHost cfg (some u) = some true ↔
        u.hostname ∈ (splitComma cfg).map jsTrim)) := by
  refine ⟨?_, ?_, ?_⟩
  · unfold isAllowedHost
    by_cases h : (parseAllowList cfg).length = 0 <;> simp [h]
  · intro h; simp [isAllowedHost, h]
  · intro h
    have hlen : (parseAllowList cfg).length ≠ 0 := by
      simpa [List.length_eq_zero] using h
    unfold isAllowedHost
    simp only [hlen, if_false]
    rw [Option.some_inj]
    constructor
    · intro hc
      have hmem : u.hostname ∈ parseAllowList cfg := by
        simpa [List.contains_eq_any_beq, List.any_eq_true] using hc
      exact (List.mem_filter.mp hmem).1
    · intro hmem
      have : u.hostname ∈ parseAllowList cfg :=
        List.mem_filter.mpr ⟨hmem, by simpa using hhost⟩
      simpa [List.contains_eq_any_beq, List.any_eq_true] using this

/-- C9 witness: a concrete host against a concrete allow-list. -/
theorem claim_C9_isAllowedHost_witness :
    (⟨"https:", "example.com"⟩ : UrlM).hostname ≠ "" ∧
    (isAllowedHost " example.com , other.org" (some ⟨"https:", "example.com"⟩)
        = some true ↔
      (⟨"https:", "example.com"⟩ : UrlM).hostname ∈
        (splitComma " example.com , other.org").map jsTrim) :=
  ⟨by decide,
    (claim_C9_isAllowedHost " example.com , other.org" ⟨"https:", "example.com"⟩
      (by decide)).2.2 (by decide)⟩

/-! ## Output serialization mapping (src/index.js:114-126, 188-190) -/

/-- `contentTypeFor(serialization)` from src/index.js:114-126. -/
def contentTypeFor (serialization : String) : String :=
  if serialization = "turtle" then "text/turtle"
  else if serialization = "trig" then "application/trig"
  else if serialization = "jsonld" then "application/ld+json"
  else "application/n-quads"

/-- The output-extension ternary from src/index.js:188-189. -/
def outputExt (serialization : String) : String :=
  if serialization = "turtle" then "ttl"
  else if serialization = "jsonld" then "jsonld"
  else "nq"

/-! ## Engine invocation (src/index.js:91-112) -/

/-- The parameters of `runRmlMapper` (src/index.js:91); `baseIri` is
`none` when the orchestrator passes `undefined`. -/
structure EngineInvocation where
  workdir : String
  mappingPath : String
  outputPath : String
  serialization : String
  baseIri : Option String
deriving DecidableEq

/-- Argument construction of src/index.js:93-96 (`push` is modelled by
appending; `if (x)` on a JS string is the non-empty test). -/
def rmlMapperArgs (jar : String) (inv : EngineInvocation) : List String :=
  let args := ["-jar", jar, "-m", inv.mappingPath, "-o", inv.outputPath]
  let args := if inv.serialization ≠ "" then args ++ ["-s", inv.serialization] else args
  match inv.baseIri with
  | some b => if b ≠ "" then args ++ ["-b", b] else args
  | none => args

/-- The `spawn("java", args, { cwd: workdir })` call of src/index.js:98. -/
structure SpawnCall where
  cmd : String
  args : List String
  cwd : String
deriving DecidableEq

def rmlMapperSpawn (jar : String) (inv : EngineInvocation) : SpawnCall :=
  ⟨"java", rmlMapperArgs jar inv, inv.workdir⟩

/-- The value following the first occurrence of `flag` in an argument list. -/
def flagValue (flag : String) : List String → Option String
  | a :: b :: rest => if a = flag then some b else flagValue flag (b :: rest)
  | _ => none

/-- One stderr `data` callback (src/index.js:101-104): append the chunk,
then keep only the most recent 200000 characters when over the bound. -/
def stderrStep (acc d : List Char) : List Char :=
  let s := acc ++ d
  if s.length > 200000 then s.drop (s.length - 200000) else s

/-- The retained stderr after consuming a list of chunks. -/
def stderrAccum (chunks : List (List Char)) : List Char :=
  chunks.foldl stderrStep []

/-- How the child process ended: a spawn `error` event, or a `close`
event with an exit code. -/
inductive EngineResult
  | spawnErr
  | exited (code : Int)
deriving DecidableEq

inductive EngineFailure
  | spawnFailure
  | exitFailure (code : Int) (diagnostic : List Char)
deriving DecidableEq

/-- The settled promise of `runRmlMapper` (src/index.js:106-110): reject
on a spawn error; on close, resolve with the captured stderr when the
code is 0, otherwise reject with the exit code and the captured stderr. -/
def runRmlMapper (result : EngineResult) (chunks : List (List Char)) :
    Except EngineFailure (List Char) :=
  match result with
  | .spawnErr => .error .spawnFailure
  | .exited code =>
    if code = 0 then .ok (stderrAccum chunks)
    else .error (.exitFailure code (stderrAccum chunks))

section StderrLemmas

lemma stderrStep_inv {acc E : List Char} (d : List Char)
    (hlen : acc.length ≤ 200000) (hsuf : acc <:+ E) :
    (stderrStep acc d).length ≤ 200000 ∧ stderrStep acc d <:+ E ++ d := by
  obtain ⟨t, ht⟩ := hsuf
  have hsufd : acc ++ d <:+ E ++ d := ⟨t, by rw [← List.append_assoc, ht]⟩
  unfold stderrStep
  by_cases h : (acc ++ d).length > 200000
  · simp only [h, if_true]
    refine ⟨?_, (List.drop_suffix _ _).trans hsufd⟩
    rw [List.length_drop]
    omega
  · simp only [h, if_false]
    exact ⟨by omega, hsufd⟩

lemma stderrAccum_inv :
    ∀ (chunks : List (List Char)) (acc E : List Char),
      acc.length ≤ 200000 → acc <:+ E →
      (chunks.foldl stderrStep acc).length ≤ 200000 ∧
        chunks.foldl stderrStep acc <:+ E ++ chunks.flatten
  | [], acc, E, hlen, hsuf => by
    simpa using ⟨hlen, hsuf⟩
  | d :: rest, acc, E, hlen, hsuf => by
    obtain ⟨h1, h2⟩ := stderrStep_inv d hlen hsuf
    obtain ⟨h3, h4⟩ := stderrAccum_inv rest (stderrStep acc d) (E ++ d) h1 h2
    refine ⟨h3, ?_⟩
    rw [List.flatten_cons, ← List.append_assoc]
    exact h4

end StderrLemmas

/-- C5: after every prefix of the consumed stderr chunk stream, the
retained diagnostic text is a suffix of everything emitted so far of
length at most 200000 characters; and a close with non-zero exit code
rejects with that exit code and the bounded diagnostic text. -/
theorem claim_C5_stderrBound (chunks pre suf : List (List Char)) (code : Int)
    (hsplit : chunks = pre ++ suf) (hcode : code ≠ 0) :
    (stderrAccum pre).length ≤ 200000 ∧
    stderrAccum pre <:+ pre.flatten ∧
    runRmlMapper (.exited code) chunks =
      .error (.exitFailure code (stderrAccum chunks)) := by
  obtain ⟨h1, h2⟩ :=
    stderrAccum_inv pre [] [] (by simp) (List.suffix_refl [])
  refine ⟨h1, by simpa using h2, ?_⟩
  simp [runRmlMapper, hcode]

/-- C5 witness: a two-chunk stream and exit code 1. -/
theorem claim_C5_stderrBound_witness :
    ([['e', 'r'], ['r', '!']] : List (List Char)) = [['e', 'r']] ++ [['r', '!']] ∧
    (1 : Int) ≠ 0 ∧
    ((stderrAccum [['e', 'r']]).length ≤ 200000 ∧
      stderrAccum [['e', 'r']] <:+ ([['e', 'r']] : List (List Char)).flatten ∧
      runRmlMapper (.exited 1) [['e', 'r'], ['r', '!']] =
        .error (.exitFailure 1 (stderrAccum [['e', 'r'], ['r', '!']]))) :=
  ⟨rfl, by decide,
    claim_C5_stderrBound [['e', 'r'], ['r', '!']] [['e', 'r']] [['r', '!']] 1 rfl (by decide)⟩

/-- C6: the spawned engine call runs `java` with working directory equal
to the job's workspace; its argument list carries the mapping-document
path after `-m` and the output path after `-o`; it carries `-s` with the
requested serialization iff a non-empty serialization was requested and
`-b` with the configured base IRI iff a non-empty base IRI is configured.
The hypotheses only rule out path/value strings that literally collide
with the flag tokens. -/
theorem claim_C6_engineInvocation (jar : String) (inv : EngineInvocation)
    (h1 : jar ≠ "-m") (h2 : jar ≠ "-o") (h3 : jar ≠ "-s") (h4 : jar ≠ "-b")
    (h5 : inv.mappingPath ≠ "-o") (h6 : inv.mappingPath ≠ "-s")
    (h7 : inv.mappingPath ≠ "-b")
    (h8 : inv.outputPath ≠ "-s") (h9 : inv.outputPath ≠ "-b")
    (h10 : inv.serialization ≠ "-b") :
    (rmlMapperSpawn jar inv).cmd = "java" ∧
    (rmlMapperSpawn jar inv).cwd = inv.workdir ∧
    flagValue "-m" (rmlMapperSpawn jar inv).args = some inv.mappingPath ∧
    flagValue "-o" (rmlMapperSpawn jar inv).args = some inv.outputPath ∧
    flagValue "-s" (rmlMapperSpawn jar inv).args =
      (if inv.serialization = "" then none else some inv.serialization) ∧
    flagValue "-b" (rmlMapperSpawn jar inv).args =
      (match inv.baseIri with
        | some b => if b = "" then none else some b
        | none => none) := by
  obtain ⟨wd, mp, op, ser, base⟩ := inv
  simp only at h5 h6 h7 h8 h9 h10
  refine ⟨rfl, rfl, ?_, ?_, ?_, ?_⟩ <;>
  · simp only [rmlMapperSpawn, rmlMapperArgs]
    cases base with
    | none =>
      by_cases hs : ser = "" <;>
        simp [flagValue, hs, h1, h2, h3, h4, h5, h6, h7, h8, h9, h10,
          Ne.symm, (Ne.symm h1), (Ne.symm h2)]
    | some b =>
      by_cases hs : ser = "" <;> by_cases hb : b = "" <;>
        simp [flagValue, hs, hb, h1, h2, h3, h4, h5, h6, h7, h8, h9, h10]

/-- C6 witness: a fully concrete invocation. -/
theorem claim_C6_engineInvocation_witness :
    (rmlMapperSpawn "/opt/rmlmapper.jar"
        ⟨"/tmp/w", "/tmp/w/mapping.ttl", "/tmp/w/output.ttl", "turtle",
          some "http://base/"⟩).cwd = "/tmp/w" ∧
    flagValue "-m" (rmlMapperSpawn "/opt/rmlmapper.jar"
        ⟨"/tmp/w", "/tmp/w/mapping.ttl", "/tmp/w/output.ttl", "turtle",
          some "http://base/"⟩).args = some "/tmp/w/mapping.ttl" ∧
    flagValue "-s" (rmlMapperSpawn "/opt/rmlmapper.jar"
        ⟨"/tmp/w", "/tmp/w/mapping.ttl", "/tmp/w/output.ttl", "turtle",
          some "http://base/"⟩).args = some "turtle" :=
  have h := claim_C6_engineInvocation "/opt/rmlmapper.jar"
    ⟨"/tmp/w", "/tmp/w/mapping.ttl", "/tmp/w/output.ttl", "turtle", some "http://base/"⟩
    (by decide) (by decide) (by decide) (by decide) (by decide) (by decide)
    (by decide) (by decide) (by decide) (by decide)
  ⟨h.2.1, h.2.2.1, by rw [h.2.2.2.2.1]; decide⟩

/-- C3 counterexample: `trig` does not get its own file extension — the
code folds it to the `nquads` extension `nq`. -/
theorem claim_C3_counterexample :
    outputExt "trig" = "nq" ∧ outputExt "nquads" = "nq" ∧
    ¬ (outputExt "trig" ≠ outputExt "nquads") := by
  refine ⟨by decide, by decide, ?_⟩
  intro h
  exact h (by decide)

/-- C3 (amended): each of `turtle`, `trig`, `jsonld`, `nquads` maps to
its own canonical content type, and any other value folds to
`application/n-quads`; but only `turtle` (`ttl`) and `jsonld` (`jsonld`)
get their own extension — `trig`, `nquads` and every other value fold to
extension `nq`; the raw serialization value is passed verbatim after the
engine's `-s` flag whenever it is non-empty. -/
theorem claim_C3_serializationMapping :
    (contentTypeFor "turtle" = "text/turtle" ∧
      contentTypeFor "trig" = "application/trig" ∧
      contentTypeFor "jsonld" = "application/ld+json" ∧
      contentTypeFor "nquads" = "application/n-quads") ∧
    (∀ s : String, s ≠ "turtle" → s ≠ "trig" → s ≠ "jsonld" →
      contentTypeFor s = "application/n-quads") ∧
    (outputExt "turtle" = "ttl" ∧ outputExt "jsonld" = "jsonld") ∧
    (∀ s : String, s ≠ "turtle" → s ≠ "jsonld" → outputExt s = "nq") ∧
    (∀ (jar : String) (inv : EngineInvocation), inv.serialization ≠ "" →
      ∃ pre post, rmlMapperArgs jar inv = pre ++ ["-s", inv.serialization] ++ post) := by
  refine ⟨⟨by decide, by decide, by decide, by decide⟩, ?_, ⟨by decide, by decide⟩, ?_, ?_⟩
  · intro s hs1 hs2 hs3
    simp [contentTypeFor, hs1, hs2, hs3]
  · intro s hs1 hs2
    simp [outputExt, hs1, hs2]
  · intro jar inv hs
    obtain ⟨wd, mp, op, ser, base⟩ := inv
    simp only at hs
    simp only [rmlMapperSpawn, rmlMapperArgs, hs, ne_eq, not_false_iff, if_true]
    cases base with
    | none => exact ⟨["-jar", jar, "-m", mp, "-o", op], [], by simp⟩
    | some b =>
      by_cases hb : b = ""
      · exact ⟨["-jar", jar, "-m", mp, "-o", op], [], by simp [hb]⟩
      · exact ⟨["-jar", jar, "-m", mp, "-o", op], ["-b", b], by simp [hb]⟩

/-- C3 witness: the universally quantified parts evaluated at concrete
serializations and a concrete invocation. -/
theorem claim_C3_serializationMapping_witness :
    contentTypeFor "yaml" = "application/n-quads" ∧
    outputExt "trig" = "nq" ∧
    ∃ pre post,
      rmlMapperArgs "/opt/rmlmapper.jar"
          ⟨"/tmp/w", "/tmp/w/mapping.ttl", "/tmp/w/output.nq", "weird-format", none⟩ =
        pre ++ ["-s", "weird-format"] ++ post :=
  ⟨claim_C3_serializationMapping.2.1 "yaml" (by decide) (by decide) (by decide),
    claim_C3_serializationMapping.2.2.2.1 "trig" (by decide) (by decide),
    claim_C3_serializationMapping.2.2.2.2 "/opt/rmlmapper.jar"
      ⟨"/tmp/w", "/tmp/w/mapping.ttl", "/tmp/w/output.nq", "weird-format", none⟩
      (by decide)⟩

/-! ## JSON bodies and `fetchJsonToFile` (src/index.js:75-89)

`fetch` and `resp.json()` are platform capabilities: each resource's
network outcome is input data — a timeout (the abort fired), or a
response with a status and, when the body parses strictly as JSON, the
parsed value.  `JSON.stringify(json, null, 2)` is modelled by
`jsonStringifyPretty`. -/

inductive Json where
  | null
  | bool (b : Bool)
  | num (n : Int)
  | str (s : String)
  | arr (elems : List Json)
  | obj (fields : List (String × Json))

def jsonEscape (s : String) : String :=
  String.mk (s.data.foldr (fun c acc =>
    match c with
    | '"' => '\\' :: '"' :: acc
    | '\\' => '\\' :: '\\' :: acc
    | '\n' => '\\' :: 'n' :: acc
    | '\r' => '\\' :: 'r' :: acc
    | '\t' => '\\' :: 't' :: acc
    | c => c :: acc) [])

def jsonQuote (s : String) : String := "\"" ++ jsonEscape s ++ "\""

def indentSpaces (n : Nat) : String := String.mk (List.replicate n ' ')

mutual

def jsonStringifyAux (ind : Nat) : Json → String
  | .null => "null"
  | .bool true => "true"
  | .bool false => "false"
  | .num n => toString n
  | .str s => jsonQuote s
  | .arr [] => "[]"
  | .arr (x :: xs) =>
    "[\n" ++ String.intercalate ",\n" (jsonStringifyElems (ind + 2) (x :: xs)) ++
      "\n" ++ indentSpaces ind ++ "]"
  | .obj [] => "\x7b\x7d"
  | .obj (f :: fs) =>
    "\x7b\n" ++ String.intercalate ",\n" (jsonStringifyFields (ind + 2) (f :: fs)) ++
      "\n" ++ indentSpaces ind ++ "\x7d"

def jsonStringifyElems (ind : Nat) : List Json → List String
  | [] => []
  | x :: xs => (indentSpaces ind ++ jsonStringifyAux ind x) :: jsonStringifyElems ind xs

def jsonStringifyFields (ind : Nat) : List (String × Json) → List String
  | [] => []
  | (k, v) :: fs =>
    (indentSpaces ind ++ jsonQuote k ++ ": " ++ jsonStringifyAux ind v) ::
      jsonStringifyFields ind fs

end

/-- `JSON.stringify(json, null, 2)`. -/
def jsonStringifyPretty (j : Json) : String := jsonStringifyAux 0 j

/-- Network outcome of one `fetch`: the per-fetch deadline elapsed and
the abort fired, or a response arrived with a status; `body = none`
models `resp.json()` rejecting (non-JSON or malformed body). -/
inductive FetchEvent
  | timeout
  | response (status : Nat) (body : Option Json)

inductive FetchError
  | timeoutErr
  | httpErr (status : Nat)
  | jsonErr

/-- `resp.ok`: status in the 2xx range [200, 300). -/
def respOk (status : Nat) : Bool := 200 ≤ status && status < 300

/-- `fetchJsonToFile(resourceUrl, outPath)` (src/index.js:75-89): fail on
abort; fail with the status on a non-ok response; fail when the body does
not parse strictly as JSON; otherwise write the pretty-printed JSON text
to `outPath` (the write is returned as the path/content pair). -/
def fetchJsonToFile (ev : FetchEvent) (outPath : String) :
    Except FetchError (String × String) :=
  match ev with
  | .timeout => .error .timeoutErr
  | .response status body =>
    if respOk status then
      match body with
      | none => .error .jsonErr
      | some j => .ok (outPath, jsonStringifyPretty j)
    else .error (.httpErr status)

/-! ## The `/map` request handler (src/index.js:137-256) -/

/-- Process-wide configuration read by the handler. -/
structure Config where
  rmlmapperJar : String
  defaultSerialization : String
  allowedFetchHosts : String
  baseIri : String

/-- One entry of the request's `resources` array.  `none` fields model
absent or non-string values; `parsed` is the URL-parser oracle for the
trimmed `resourceUrl` string (`none` when `new URL` would throw). -/
structure RawResource where
  resourceUrl : Option String
  fileName : Option String
  parsed : Option UrlM

/-- A validated resource: trimmed URL and sanitized file name. -/
structure NormResource where
  resourceUrl : String
  fileName : String
deriving DecidableEq

/-- The incoming request: the optional `serialization` query parameter,
the `yarrml` body field, and the `resources` array (`none` when absent
or not an array). -/
structure Request where
  querySerialization : Option String
  yarrml : Option String
  resources : Option (List RawResource)

/-- What `y2r.convert(yarrml)` returned: a string, an array of quads
(whose N3 serialization, possibly failing, is the oracle inside), or a
value of some other type. -/
inductive Converted
  | text (s : String)
  | quads (serialized : Except String String)
  | other (typeName : String)

/-- The per-job environment: every platform outcome the handler consumes. -/
structure JobEnv where
  mkdtemp : Option String
  fetchEvents : List FetchEvent
  converted : Converted
  loggerHasError : Bool
  logs : String
  engineResult : EngineResult
  engineStderr : List (List Char)
  outputRead : Option String

inductive RespBody
  | missingYarrml
  | missingResources
  | resourceUrlRequired
  | notHttp (url : String)
  | hostNotAllowed (url : String)
  | conversionFailed (logs : String)
  | mappingFailed (message : String)
  | output (text : String)
  | uncaught

structure Response where
  status : Nat
  contentType : Option String
  body : RespBody

/-- Chronological side effects of one `/map` handling. -/
inductive Event
  | mkWorkdir (dir : String)
  | fetchStart (url : String)
  | fileWrite (path content : String)
  | engineSpawn (call : SpawnCall)
  | rmAttempt (dir : String) (ok : Bool)
deriving DecidableEq

/-- `path.join(dir, name)` for a clean directory and a sanitized leaf name. -/
def pathJoin (dir name : String) : String := dir ++ "/" ++ name

/-- `r && typeof r.resourceUrl === "string" ? r.resourceUrl.trim() : ""`. -/
def rawUrl (r : RawResource) : String :=
  match r.resourceUrl with
  | some s => jsTrim s
  | none => ""

/-- The validation loop of src/index.js:159-181: the first invalid
resource rejects the whole request; valid ones are normalized. -/
def validateResources (cfg : Config) :
    List RawResource → Except Response (List NormResource)
  | [] => .ok []
  | r :: rest =>
    if rawUrl r = "" then .error ⟨400, none, .resourceUrlRequired⟩
    else if isHttpUrl r.parsed = false then .error ⟨400, none, .notHttp (rawUrl r)⟩
    else
      match isAllowedHost cfg.allowedFetchHosts r.parsed with
      | none => .error ⟨500, none, .uncaught⟩
      | some false => .error ⟨403, none, .hostNotAllowed (rawUrl r)⟩
      | some true =>
        match validateResources cfg rest with
        | .error resp => .error resp
        | .ok l =>
          .ok (⟨rawUrl r, sanitizeFilename (r.fileName.getD "") "data.json"⟩ :: l)

/-- The fetch phase (src/index.js:195-199): every fetch is issued;
successful ones write their file into the workspace. -/
def fetchWriteEvents (workdir : String)
    (l : List (NormResource × FetchEvent)) : List Event :=
  (l.map (fun p =>
    Event.fetchStart p.1.resourceUrl ::
      (match fetchJsonToFile p.2 (pathJoin workdir p.1.fileName) with
        | .ok (wp, content) => [Event.fileWrite wp content]
        | .error _ => []))).flatten

/-- The error with which `Promise.all` over the fetches rejects, if any. -/
def firstFetchError (workdir : String)
    (l : List (NormResource × FetchEvent)) : Option FetchError :=
  l.findSome? (fun p =>
    match fetchJsonToFile p.2 (pathJoin workdir p.1.fileName) with
    | .error e => some e
    | .ok _ => none)

def fetchErrorMessage : FetchError → String
  | .timeoutErr => "This operation was aborted"
  | .httpErr status => "Fetch failed: HTTP " ++ toString status
  | .jsonErr => "Unexpected end of JSON input"

def engineFailureMessage : EngineFailure → String
  | .spawnFailure => "spawn java ENOENT"
  | .exitFailure code diagnostic =>
    "RMLMapper exited with code " ++ toString code ++ "\n" ++ String.mk diagnostic

/-- The shape dispatch of src/index.js:215-224 on the converted value. -/
def rmlTurtleOf : Converted → Except String String
  | .text s => .ok s
  | .quads r => r
  | .other t => .error ("Unexpected yarrrml convert() return type: " ++ t)

/-- Body of the `try` block (src/index.js:192-245): fetch all resources,
check the conversion log, normalize the converted value, write the
mapping, spawn the engine, read and return the output.  Any failure is
the `catch`'s 422 "Mapping failed" response, except the conversion-log
check which returns its own 422 with the full log. -/
def tryBody (cfg : Config) (env : JobEnv) (serialization : String)
    (normalized : List NormResource) (workdir : String) :
    List Event × Response :=
  let mappingPath := pathJoin workdir "mapping.ttl"
  let outputPath := pathJoin workdir ("output." ++ outputExt serialization)
  let pairs := normalized.zip env.fetchEvents
  let fEvents := fetchWriteEvents workdir pairs
  match firstFetchError workdir pairs with
  | some e => (fEvents, ⟨422, none, .mappingFailed (fetchErrorMessage e)⟩)
  | none =>
    if env.loggerHasError then
      (fEvents, ⟨422, none, .conversionFailed env.logs⟩)
    else
      match rmlTurtleOf env.converted with
      | .error m => (fEvents, ⟨422, none, .mappingFailed m⟩)
      | .ok rmlTurtle =>
        let baseIri := jsTrim cfg.baseIri
        let inv : EngineInvocation :=
          ⟨workdir, mappingPath, outputPath, serialization,
            if baseIri = "" then none else some baseIri⟩
        let call := rmlMapperSpawn cfg.rmlmapperJar inv
        match runRmlMapper env.engineResult env.engineStderr with
        | .error ef =>
          (fEvents ++ [Event.fileWrite mappingPath rmlTurtle, Event.engineSpawn call],
            ⟨422, none, .mappingFailed (engineFailureMessage ef)⟩)
        | .ok _ =>
          match env.outputRead with
          | none =>
            (fEvents ++ [Event.fileWrite mappingPath rmlTurtle, Event.engineSpawn call],
              ⟨422, none, .mappingFailed "ENOENT: no such file or directory"⟩)
          | some out =>
            (fEvents ++ [Event.fileWrite mappingPath rmlTurtle, Event.engineSpawn call],
              ⟨200, some (contentTypeFor serialization ++ "; charset=utf-8"), .output out⟩)

structure CoreOut where
  events : List Event
  resp : Response
  workdirCreated : Option String

/-- `(req.query.serialization || DEFAULT_SERIALIZATION).toString().trim()`
(src/index.js:139). -/
def requestSerialization (cfg : Config) (req : Request) : String :=
  jsTrim (match req.querySerialization with
    | some q => if q = "" then cfg.defaultSerialization else q
    | none => cfg.defaultSerialization)

/-- The guards executed before the workspace exists
(src/index.js:141-181): `yarrml` must be a non-blank string, `resources`
a non-empty array, and every resource must validate. -/
def preValidate (cfg : Config) (req : Request) :
    Except Response (List NormResource) :=
  match req.yarrml with
  | none => .error ⟨400, none, .missingYarrml⟩
  | some y =>
    if jsTrim y = "" then .error ⟨400, none, .missingYarrml⟩
    else
      match req.resources with
      | none => .error ⟨400, none, .missingResources⟩
      | some rs =>
        if rs.isEmpty then .error ⟨400, none, .missingResources⟩
        else validateResources cfg rs

/-- The handler up to and including the `try` block (src/index.js:137-250):
guards, per-resource validation, workspace creation, then `tryBody`. -/
def mapHandlerCore (cfg : Config) (req : Request) (env : JobEnv) : CoreOut :=
  match preValidate cfg req with
  | .error resp => ⟨[], resp, none⟩
  | .ok normalized =>
    match env.mkdtemp with
    | none => ⟨[], ⟨500, none, .uncaught⟩, none⟩
    | some workdir =>
      let r := tryBody cfg env (requestSerialization cfg req) normalized workdir
      ⟨Event.mkWorkdir workdir :: r.1, r.2, some workdir⟩

/-- The whole handling including the `finally` block (src/index.js:251-255):
when a workspace was created, `fs.rm(workdir, { recursive: true,
force: true })` is attempted and its own failure is swallowed by the
empty `catch`, so the response is the one the core already chose. -/
def mapHandler (cfg : Config) (req : Request) (env : JobEnv) (rmFails : Bool) :
    List Event × Response :=
  let c := mapHandlerCore cfg req env
  match c.workdirCreated with
  | some d => (c.events ++ [Event.rmAttempt d (!rmFails)], c.resp)
  | none => (c.events, c.resp)

section HandlerLemmas

lemma isAllowedHost_ne_none (cfg : String) (u : UrlM) :
    isAllowedHost cfg (some u) ≠ none := by
  unfold isAllowedHost
  by_cases h : (parseAllowList cfg).length = 0 <;> simp [h]

lemma fetchWriteEvents_nil (w : String) : fetchWriteEvents w [] = [] := rfl

lemma fetchWriteEvents_cons (w : String) (p : NormResource × FetchEvent)
    (rest : List (NormResource × FetchEvent)) :
    fetchWriteEvents w (p :: rest) =
      (Event.fetchStart p.1.resourceUrl ::
        (match fetchJsonToFile p.2 (pathJoin w p.1.fileName) with
          | .ok (wp, content) => [Event.fileWrite wp content]
          | .error _ => [])) ++ fetchWriteEvents w rest := by
  simp [fetchWriteEvents]

lemma fetchWriteEvents_append (w : String)
    (l₁ l₂ : List (NormResource × FetchEvent)) :
    fetchWriteEvents w (l₁ ++ l₂) =
      fetchWriteEvents w l₁ ++ fetchWriteEvents w l₂ := by
  simp [fetchWriteEvents]

lemma fetchWriteEvents_mem {w : String} {l : List (NormResource × FetchEvent)}
    {e : Event} (h : e ∈ fetchWriteEvents w l) :
    (∃ u, e = Event.fetchStart u) ∨ ∃ p c, e = Event.fileWrite p c := by
  induction l with
  | nil => rw [fetchWriteEvents_nil] at h; cases h
  | cons p rest ih =>
    rw [fetchWriteEvents_cons] at h
    rcases List.mem_append.mp h with h' | h'
    · rcases List.mem_cons.mp h' with rfl | h''
      · exact Or.inl ⟨_, rfl⟩
      · rcases hres : fetchJsonToFile p.2 (pathJoin w p.1.fileName) with e' | pr
        · rw [hres] at h''; cases h''
        · rw [hres] at h''
          obtain ⟨wp, content⟩ := pr
          rcases List.mem_cons.mp h'' with rfl | h3
          · exact Or.inr ⟨_, _, rfl⟩
          · cases h3
    · exact ih h'

lemma validateResources_error_status {cfg : Config} :
    ∀ {rs : List RawResource} {resp : Response},
      validateResources cfg rs = .error resp →
      resp.status = 400 ∨ resp.status = 403
  | [], resp, h => by simp [validateResources] at h
  | a :: rest, resp, h => by
    unfold validateResources at h
    by_cases hu : rawUrl a = ""
    · simp [hu] at h; rw [← h]; exact Or.inl rfl
    · by_cases hh : isHttpUrl a.parsed = false
      · simp [hu, hh] at h; rw [← h]; exact Or.inl rfl
      · have hh' : isHttpUrl a.parsed = true := by
          revert hh; cases isHttpUrl a.parsed <;> simp
        obtain ⟨u, hp⟩ : ∃ u, a.parsed = some u := by
          cases hp : a.parsed with
          | none => rw [hp] at hh'; simp [isHttpUrl] at hh'
          | some u => exact ⟨u, rfl⟩
        simp only [hu, if_false, hh', Bool.true_eq_false, if_false] at h
        rcases hA : isAllowedHost cfg.allowedFetchHosts a.parsed with - | b
        · rw [hp] at hA; exact absurd hA (isAllowedHost_ne_none _ _)
        · rw [hA] at h
          cases b with
          | false => simp at h; rw [← h]; exact Or.inr rfl
          | true =>
            simp only at h
            rcases hrec : validateResources cfg rest with resp' | l
            · rw [hrec] at h; simp at h
              rw [← h]; exact validateResources_error_status hrec
            · rw [hrec] at h; simp at h

lemma validateResources_bad {cfg : Config} :
    ∀ {rs : List RawResource} {r : RawResource}, r ∈ rs →
      (rawUrl r = "" ∨ isHttpUrl r.parsed = false ∨
        isAllowedHost cfg.allowedFetchHosts r.parsed ≠ some true) →
      ∃ resp, validateResources cfg rs = .error resp ∧
        (resp.status = 400 ∨ resp.status = 403)
  | [], r, hr, _ => absurd hr (List.not_mem_nil r)
  | a :: rest, r, hr, hbad => by
    unfold validateResources
    by_cases hu : rawUrl a = ""
    · exact ⟨⟨400, none, .resourceUrlRequired⟩, by simp [hu], Or.inl rfl⟩
    · by_cases hh : isHttpUrl a.parsed = false
      · exact ⟨⟨400, none, .notHttp (rawUrl a)⟩, by simp [hu, hh], Or.inl rfl⟩
      · have hh' : isHttpUrl a.parsed = true := by
          revert hh; cases isHttpUrl a.parsed <;> simp
        obtain ⟨u, hp⟩ : ∃ u, a.parsed = some u := by
          cases hp : a.parsed with
          | none => rw [hp] at hh'; simp [isHttpUrl] at hh'
          | some u => exact ⟨u, rfl⟩
        rcases hA : isAllowedHost cfg.allowedFetchHosts a.parsed with - | b
        · rw [hp] at hA; exact absurd hA (isAllowedHost_ne_none _ _)
        · cases b with
          | false =>
            exact ⟨⟨403, none, .hostNotAllowed (rawUrl a)⟩,
              by simp [hu, hh', hA], Or.inr rfl⟩
          | true =>
            rcases List.mem_cons.mp hr with rfl | hr'
            · rcases hbad with hb | hb | hb
              · exact absurd hb hu
              · rw [hh'] at hb; exact absurd hb (by simp)
              · rw [hA] at hb; exact absurd rfl hb
            · obtain ⟨resp, hre, hst⟩ := validateResources_bad hr' hbad
              refine ⟨resp, ?_, hst⟩
              simp [hu, hh', hA, hre]

lemma getLast?_append_one {α : Type} (l : List α) (a : α) :
    (l ++ [a]).getLast? = some a :=
  List.getLast?_concat l

end HandlerLemmas

/-- C7: a fetch whose deadline elapses fails with the abort; a non-2xx
response fails with an error carrying the status; a 2xx response whose
body is not valid JSON fails the fetch; a 2xx response with a JSON body
writes the pretty-printed JSON text to the destination path, which for
the handler's fetch phase is `workdir/<sanitized fileName>`. -/
theorem claim_C7_fetchJsonToFile (outPath : String) :
    fetchJsonToFile .timeout outPath = .error .timeoutErr ∧
    (∀ (status : Nat) (body : Option Json), respOk status = false →
      fetchJsonToFile (.response status body) outPath = .error (.httpErr status)) ∧
    (∀ status : Nat, respOk status = true →
      fetchJsonToFile (.response status none) outPath = .error .jsonErr) ∧
    (∀ (status : Nat) (j : Json), respOk status = true →
      fetchJsonToFile (.response status (some j)) outPath =
        .ok (outPath, jsonStringifyPretty j)) ∧
    (∀ (workdir : String) (r : NormResource) (status : Nat) (j : Json),
      respOk status = true →
      fetchWriteEvents workdir [(r, .response status (some j))] =
        [Event.fetchStart r.resourceUrl,
          Event.fileWrite (pathJoin workdir r.fileName) (jsonStringifyPretty j)]) := by
  refine ⟨rfl, ?_, ?_, ?_, ?_⟩
  · intro status body h
    simp [fetchJsonToFile, h]
  · intro status h
    simp [fetchJsonToFile, h]
  · intro status j h
    simp [fetchJsonToFile, h]
  · intro workdir r status j h
    simp [fetchWriteEvents, fetchJsonToFile, h]

/-- C7 witness: status 500 fails with the status, status 200 with a JSON
body writes the pretty-printed text into the workspace. -/
theorem claim_C7_fetchJsonToFile_witness :
    respOk 500 = false ∧ respOk 200 = true ∧
    fetchJsonToFile (.response 500 none) "/tmp/w/data.json" =
      .error (.httpErr 500) ∧
    fetchJsonToFile (.response 200 (some (.obj [("a", .num 1)])))
        "/tmp/w/data.json" =
      .ok ("/tmp/w/data.json", jsonStringifyPretty (.obj [("a", .num 1)])) ∧
    fetchWriteEvents "/tmp/w" [(⟨"https://example.com/d", "data.json"⟩, .response 200 (some .null))] =
      [Event.fetchStart "https://example.com/d",
        Event.fileWrite (pathJoin "/tmp/w" "data.json") (jsonStringifyPretty .null)] :=
  ⟨by decide, by decide,
    (claim_C7_fetchJsonToFile "/tmp/w/data.json").2.1 500 none (by decide),
    (claim_C7_fetchJsonToFile "/tmp/w/data.json").2.2.2.1 200 (.obj [("a", .num 1)]) (by decide),
    (claim_C7_fetchJsonToFile "/tmp/w/data.json").2.2.2.2 "/tmp/w"
      ⟨"https://example.com/d", "data.json"⟩ 200 .null (by decide)⟩

/-- The three ways a resource reference is invalid: missing/blank
`resourceUrl`, not an absolute http(s) URL, or the host not allowed. -/
def badRef (cfg : Config) (r : RawResource) : Prop :=
  rawUrl r = "" ∨ isHttpUrl r.parsed = false ∨
    isAllowedHost cfg.allowedFetchHosts r.parsed ≠ some true

/-- C2: a request whose resource list contains even one invalid
reference is rejected in its entirety with a validation failure (HTTP
400 or 403) and produces no side effects at all: no fetch is started and
no workspace directory is created. -/
theorem claim_C2_failFastValidation (cfg : Config) (req : Request)
    (env : JobEnv) (rmFails : Bool) (rs : List RawResource) (r : RawResource)
    (hrs : req.resources = some rs) (hr : r ∈ rs) (hbad : badRef cfg r) :
    ((mapHandler cfg req env rmFails).2.status = 400 ∨
      (mapHandler cfg req env rmFails).2.status = 403) ∧
    (mapHandler cfg req env rmFails).1 = [] := by
  have hpv : ∃ resp, preValidate cfg req = .error resp ∧
      (resp.status = 400 ∨ resp.status = 403) := by
    unfold preValidate
    cases hy : req.yarrml with
    | none => exact ⟨⟨400, none, .missingYarrml⟩, rfl, Or.inl rfl⟩
    | some y =>
      by_cases hty : jsTrim y = ""
      · exact ⟨⟨400, none, .missingYarrml⟩, by simp [hty], Or.inl rfl⟩
      · rw [hrs]
        have hne : rs.isEmpty = false := by
          cases rs with
          | nil => cases hr
          | cons a t => rfl
        obtain ⟨resp, hre, hst⟩ := validateResources_bad hr hbad
        exact ⟨resp, by simp [hty, hne, hre], hst⟩
  obtain ⟨resp, hre, hst⟩ := hpv
  have hcore : mapHandlerCore cfg req env = ⟨[], resp, none⟩ := by
    unfold mapHandlerCore
    simp [hre]
  constructor
  · unfold mapHandler
    rw [hcore]
    exact hst
  · unfold mapHandler
    rw [hcore]

/-- C2 witness: one resource with a non-http URL; the request is
rejected with status 400 and an empty side-effect trace. -/
theorem claim_C2_failFastValidation_witness :
    (some [(⟨some "ftp://example.com/x", some "data.json",
        some ⟨"ftp:", "example.com"⟩⟩ : RawResource)] : Option (List RawResource)) =
      some [⟨some "ftp://example.com/x", some "data.json", some ⟨"ftp:", "example.com"⟩⟩] ∧
    badRef ⟨"/opt/rmlmapper.jar", "nquads", "", ""⟩
      ⟨some "ftp://example.com/x", some "data.json", some ⟨"ftp:", "example.com"⟩⟩ ∧
    (((mapHandler ⟨"/opt/rmlmapper.jar", "nquads", "", ""⟩
        ⟨none, some "mappings:", some [⟨some "ftp://example.com/x", some "data.json",
          some ⟨"ftp:", "example.com"⟩⟩]⟩
        ⟨some "/tmp/w", [], .text "", false, "", .exited 0, [], some ""⟩ false).2.status = 400 ∨
      (mapHandler ⟨"/opt/rmlmapper.jar", "nquads", "", ""⟩
        ⟨none, some "mappings:", some [⟨some "ftp://example.com/x", some "data.json",
          some ⟨"ftp:", "example.com"⟩⟩]⟩
        ⟨some "/tmp/w", [], .text "", false, "", .exited 0, [], some ""⟩ false).2.status = 403) ∧
      (mapHandler ⟨"/opt/rmlmapper.jar", "nquads", "", ""⟩
        ⟨none, some "mappings:", some [⟨some "ftp://example.com/x", some "data.json",
          some ⟨"ftp:", "example.com"⟩⟩]⟩
        ⟨some "/tmp/w", [], .text "", false, "", .exited 0, [], some ""⟩ false).1 = []) :=
  ⟨rfl, Or.inr (Or.inl (by decide)),
    claim_C2_failFastValidation ⟨"/opt/rmlmapper.jar", "nquads", "", ""⟩
      ⟨none, some "mappings:", some [⟨some "ftp://example.com/x", some "data.json",
        some ⟨"ftp:", "example.com"⟩⟩]⟩
      ⟨some "/tmp/w", [], .text "", false, "", .exited 0, [], some ""⟩ false
      [⟨some "ftp://example.com/x", some "data.json", some ⟨"ftp:", "example.com"⟩⟩]
      ⟨some "ftp://example.com/x", some "data.json", some ⟨"ftp:", "example.com"⟩⟩
      rfl (List.mem_singleton.mpr rfl) (Or.inr (Or.inl (by decide)))⟩

/-- C4: when the conversion capability's logger reports an error-level
diagnostic, the job fails with the 422 conversion-error response carrying
the full diagnostic log, and the external engine is never spawned. -/
theorem claim_C4_conversionError (cfg : Config) (req : Request) (env : JobEnv)
    (rmFails : Bool) (normalized : List NormResource) (workdir : String)
    (hval : preValidate cfg req = .ok normalized)
    (hmk : env.mkdtemp = some workdir)
    (hfetch : firstFetchError workdir (normalized.zip env.fetchEvents) = none)
    (hlog : env.loggerHasError = true) :
    (mapHandler cfg req env rmFails).2 =
      ⟨422, none, .conversionFailed env.logs⟩ ∧
    ∀ call, Event.engineSpawn call ∉ (mapHandler cfg req env rmFails).1 := by
  have htry : tryBody cfg env (requestSerialization cfg req) normalized workdir =
      (fetchWriteEvents workdir (normalized.zip env.fetchEvents),
        ⟨422, none, .conversionFailed env.logs⟩) := by
    unfold tryBody
    simp [hfetch, hlog]
  have hcore : mapHandlerCore cfg req env =
      ⟨Event.mkWorkdir workdir ::
          fetchWriteEvents workdir (normalized.zip env.fetchEvents),
        ⟨422, none, .conversionFailed env.logs⟩, some workdir⟩ := by
    unfold mapHandlerCore
    simp [hval, hmk, htry]
  constructor
  · unfold mapHandler
    rw [hcore]
  · intro call hmem
    unfold mapHandler at hmem
    rw [hcore] at hmem
    simp only [List.cons_append, List.mem_cons, List.mem_append,
      List.mem_singleton] at hmem
    rcases hmem with h | h | h | h
    · cases h
    · rcases fetchWriteEvents_mem h with ⟨u, h'⟩ | ⟨p, c, h'⟩ <;> cases h'
    · cases h
    · cases h

/-- C4 witness: a concrete job reaching conversion with an error-level
diagnostic; the response is the 422 conversion failure carrying the log
and the engine is never spawned. -/
theorem claim_C4_conversionError_witness :
    preValidate ⟨"/opt/rmlmapper.jar", "nquads", "", ""⟩
        ⟨none, some "mappings: x", some [⟨some "https://example.com/d.json",
          some "data.json", some ⟨"https:", "example.com"⟩⟩]⟩ =
      .ok [⟨"https://example.com/d.json", "data.json"⟩] ∧
    ((mapHandler ⟨"/opt/rmlmapper.jar", "nquads", "", ""⟩
        ⟨none, some "mappings: x", some [⟨some "https://example.com/d.json",
          some "data.json", some ⟨"https:", "example.com"⟩⟩]⟩
        ⟨some "/tmp/mapjob-1", [.response 200 (some .null)], .text "rml",
          true, "error: bad yarrrml", .exited 0, [], some ""⟩ false).2 =
      ⟨422, none, .conversionFailed "error: bad yarrrml"⟩ ∧
    ∀ call, Event.engineSpawn call ∉
      (mapHandler ⟨"/opt/rmlmapper.jar", "nquads", "", ""⟩
        ⟨none, some "mappings: x", some [⟨some "https://example.com/d.json",
          some "data.json", some ⟨"https:", "example.com"⟩⟩]⟩
        ⟨some "/tmp/mapjob-1", [.response 200 (some .null)], .text "rml",
          true, "error: bad yarrrml", .exited 0, [], some ""⟩ false).1) :=
  ⟨rfl,
    claim_C4_conversionError ⟨"/opt/rmlmapper.jar", "nquads", "", ""⟩
      ⟨none, some "mappings: x", some [⟨some "https://example.com/d.json",
        some "data.json", some ⟨"https:", "example.com"⟩⟩]⟩
      ⟨some "/tmp/mapjob-1", [.response 200 (some .null)], .text "rml",
        true, "error: bad yarrrml", .exited 0, [], some ""⟩ false
      [⟨"https://example.com/d.json", "data.json"⟩] "/tmp/mapjob-1"
      rfl rfl rfl rfl⟩

section CleanupLemmas

lemma getLast?_cons_append_one {α : Type} (a : α) (l : List α) (b : α) :
    (a :: (l ++ [b])).getLast? = some b := by
  rw [← List.cons_append]
  exact getLast?_append_one _ _

lemma tryBody_events_structure (cfg : Config) (env : JobEnv) (s : String)
    (n : List NormResource) (w : String) :
    (tryBody cfg env s n w).1 = fetchWriteEvents w (n.zip env.fetchEvents) ∨
    ∃ mp rml call,
      (tryBody cfg env s n w).1 =
        fetchWriteEvents w (n.zip env.fetchEvents) ++
          [Event.fileWrite mp rml, Event.engineSpawn call] := by
  unfold tryBody
  rcases hf : firstFetchError w (n.zip env.fetchEvents) with - | e
  · simp only [hf]
    by_cases hl : env.loggerHasError = true
    · simp only [hl, if_true]
      exact Or.inl (by simp)
    · simp only [hl, if_false]
      rcases hc : rmlTurtleOf env.converted with m | rml
      · simp only [hc]
        exact Or.inl (by simp)
      · simp only [hc]
        rcases hr : runRmlMapper env.engineResult env.engineStderr with ef | so
        · simp only [hr]
          exact Or.inr ⟨pathJoin w "mapping.ttl", rml,
            rmlMapperSpawn cfg.rmlmapperJar
              ⟨w, pathJoin w "mapping.ttl", pathJoin w ("output." ++ outputExt s), s,
                if jsTrim cfg.baseIri = "" then none else some (jsTrim cfg.baseIri)⟩,
            by simp⟩
        · simp only [hr]
          rcases ho : env.outputRead with - | out
          · simp only [ho]
            exact Or.inr ⟨pathJoin w "mapping.ttl", rml,
            rmlMapperSpawn cfg.rmlmapperJar
              ⟨w, pathJoin w "mapping.ttl", pathJoin w ("output." ++ outputExt s), s,
                if jsTrim cfg.baseIri = "" then none else some (jsTrim cfg.baseIri)⟩,
            by simp⟩
          · simp only [ho]
            exact Or.inr ⟨pathJoin w "mapping.ttl", rml,
            rmlMapperSpawn cfg.rmlmapperJar
              ⟨w, pathJoin w "mapping.ttl", pathJoin w ("output." ++ outputExt s), s,
                if jsTrim cfg.baseIri = "" then none else some (jsTrim cfg.baseIri)⟩,
            by simp⟩
  · simp only [hf]
    exact Or.inl (by simp)

lemma tryBody_no_mkWorkdir (cfg : Config) (env : JobEnv) (s : String)
    (n : List NormResource) (w d : String) :
    Event.mkWorkdir d ∉ (tryBody cfg env s n w).1 := by
  intro h
  rcases tryBody_events_structure cfg env s n w with he | ⟨mp, rml, call, he⟩
  · rw [he] at h
    rcases fetchWriteEvents_mem h with ⟨u, h'⟩ | ⟨p, c, h'⟩ <;> cases h'
  · rw [he] at h
    rcases List.mem_append.mp h with h' | h'
    · rcases fetchWriteEvents_mem h' with ⟨u, h''⟩ | ⟨p, c, h''⟩ <;> cases h''
    · rcases List.mem_cons.mp h' with h'' | h''
      · cases h''
      · rcases List.mem_singleton.mp h''

lemma mapHandlerCore_structure (cfg : Config) (req : Request) (env : JobEnv) :
    ((mapHandlerCore cfg req env).workdirCreated = none ∧
      (mapHandlerCore cfg req env).events = []) ∨
    ∃ w n, preValidate cfg req = .ok n ∧ env.mkdtemp = some w ∧
      (mapHandlerCore cfg req env).workdirCreated = some w ∧
      (mapHandlerCore cfg req env).events =
        Event.mkWorkdir w ::
          (tryBody cfg env (requestSerialization cfg req) n w).1 := by
  unfold mapHandlerCore
  rcases hpv : preValidate cfg req with resp | n
  · simp only [hpv]
    exact Or.inl ⟨by simp, by simp⟩
  · rcases hmk : env.mkdtemp with - | w
    · simp only [hpv, hmk]
      exact Or.inl ⟨by simp, by simp⟩
    · simp only [hpv, hmk]
      refine Or.inr ⟨w, n, ?_, ?_, ?_, ?_⟩ <;> simp [hpv, hmk]

end CleanupLemmas

/-- C1: whenever a workspace directory is created for a job, the
handling's trace ends with the recursive-removal attempt on that same
directory — on the success path and on every failure path alike — and
whether that removal itself fails has no effect on the response. -/
theorem claim_C1_workspaceCleanup (cfg : Config) (req : Request)
    (env : JobEnv) (rmFails : Bool) (d : String)
    (h : Event.mkWorkdir d ∈ (mapHandler cfg req env rmFails).1) :
    (∃ ok, (mapHandler cfg req env rmFails).1.getLast? =
      some (.rmAttempt d ok)) ∧
    (mapHandler cfg req env true).2 = (mapHandler cfg req env false).2 := by
  have hresp : ∀ rf, (mapHandler cfg req env rf).2 =
      (mapHandlerCore cfg req env).resp := by
    intro rf
    unfold mapHandler
    rcases hwc : (mapHandlerCore cfg req env).workdirCreated with - | w <;>
      simp [hwc]
  refine ⟨?_, by rw [hresp true, hresp false]⟩
  rcases mapHandlerCore_structure cfg req env with ⟨hwc, hev⟩ |
    ⟨w, n, hpv, hmk, hwc, hev⟩
  · unfold mapHandler at h
    simp only [hwc, hev] at h
    cases h
  · unfold mapHandler at h ⊢
    simp only [hwc, hev] at h ⊢
    have hd : d = w := by
      rcases List.mem_cons.mp h with heq | h'
      · simpa using heq
      · rcases List.mem_append.mp h' with h'' | h''
        · exact absurd h'' (tryBody_no_mkWorkdir cfg env _ n w d)
        · rcases List.mem_singleton.mp h''
    subst hd
    exact ⟨!rmFails, getLast?_cons_append_one _ _ _⟩

/-- C1 witness: a fully successful concrete job; the trace ends with the
removal attempt on the created workspace and the response is unchanged by
a removal failure. -/
theorem claim_C1_workspaceCleanup_witness :
    Event.mkWorkdir "/tmp/mapjob-1" ∈
      (mapHandler ⟨"/opt/rmlmapper.jar", "nquads", "", ""⟩
        ⟨none, some "mappings: x", some [⟨some "https://example.com/d.json",
          some "data.json", some ⟨"https:", "example.com"⟩⟩]⟩
        ⟨some "/tmp/mapjob-1", [.response 200 (some .null)], .text "rml",
          false, "", .exited 0, [], some "<a> <b> <c> .\n"⟩ false).1 ∧
    ∃ ok, (mapHandler ⟨"/opt/rmlmapper.jar", "nquads", "", ""⟩
        ⟨none, some "mappings: x", some [⟨some "https://example.com/d.json",
          some "data.json", some ⟨"https:", "example.com"⟩⟩]⟩
        ⟨some "/tmp/mapjob-1", [.response 200 (some .null)], .text "rml",
          false, "", .exited 0, [], some "<a> <b> <c> .\n"⟩ false).1.getLast? =
      some (.rmAttempt "/tmp/mapjob-1" ok) :=
  have h : Event.mkWorkdir "/tmp/mapjob-1" ∈
      (mapHandler ⟨"/opt/rmlmapper.jar", "nquads", "", ""⟩
        ⟨none, some "mappings: x", some [⟨some "https://example.com/d.json",
          some "data.json", some ⟨"https:", "example.com"⟩⟩]⟩
        ⟨some "/tmp/mapjob-1", [.response 200 (some .null)], .text "rml",
          false, "", .exited 0, [], some "<a> <b> <c> .\n"⟩ false).1 := by decide
  ⟨h, (claim_C1_workspaceCleanup ⟨"/opt/rmlmapper.jar", "nquads", "", ""⟩
      ⟨none, some "mappings: x", some [⟨some "https://example.com/d.json",
        some "data.json", some ⟨"https:", "example.com"⟩⟩]⟩
      ⟨some "/tmp/mapjob-1", [.response 200 (some .null)], .text "rml",
        false, "", .exited 0, [], some "<a> <b> <c> .\n"⟩ false "/tmp/mapjob-1" h).1⟩

/-- C10: a resource whose `fileName` is exactly `mapping.ttl` passes the
sanitizer unchanged; when its fetch succeeds, the handler writes the
fetched body to `workdir/mapping.ttl`, later writes the generated RML
mapping to the same path (silently overwriting the fetched resource),
and only then spawns the engine: the workspace's reserved file name is
not protected from resource names. -/
theorem claim_C10_reservedFileNameOverwrite (cfg : Config) (req : Request)
    (env : JobEnv) (rmFails : Bool) (normalized : List NormResource)
    (workdir : String) (l₁ l₂ : List (NormResource × FetchEvent))
    (r : NormResource) (ev : FetchEvent) (c rml : String)
    (hval : preValidate cfg req = .ok normalized)
    (hmk : env.mkdtemp = some workdir)
    (hzip : normalized.zip env.fetchEvents = l₁ ++ (r, ev) :: l₂)
    (hfn : r.fileName = "mapping.ttl")
    (hok : fetchJsonToFile ev (pathJoin workdir "mapping.ttl") =
      .ok (pathJoin workdir "mapping.ttl", c))
    (hfetch : firstFetchError workdir (normalized.zip env.fetchEvents) = none)
    (hlog : env.loggerHasError = false)
    (hconv : rmlTurtleOf env.converted = .ok rml) :
    sanitizeFilename "mapping.ttl" "data.json" = "mapping.ttl" ∧
    ∃ evs1 evs2 evs3 call,
      (mapHandler cfg req env rmFails).1 =
        evs1 ++ Event.fileWrite (pathJoin workdir "mapping.ttl") c ::
          (evs2 ++ Event.fileWrite (pathJoin workdir "mapping.ttl") rml ::
            Event.engineSpawn call :: evs3) := by
  have hl : ¬ env.loggerHasError = true := by rw [hlog]; simp
  have htry : ∃ call,
      (tryBody cfg env (requestSerialization cfg req) normalized workdir).1 =
      fetchWriteEvents workdir (normalized.zip env.fetchEvents) ++
        [Event.fileWrite (pathJoin workdir "mapping.ttl") rml,
          Event.engineSpawn call] := by
    unfold tryBody
    simp only [hfetch, hl, if_false, hconv]
    rcases hr : runRmlMapper env.engineResult env.engineStderr with ef | so
    · simp only [hr]
      exact ⟨rmlMapperSpawn cfg.rmlmapperJar
        ⟨workdir, pathJoin workdir "mapping.ttl",
          pathJoin workdir ("output." ++ outputExt (requestSerialization cfg req)),
          requestSerialization cfg req,
          if jsTrim cfg.baseIri = "" then none else some (jsTrim cfg.baseIri)⟩,
        by simp⟩
    · simp only [hr]
      rcases ho : env.outputRead with - | out
      · simp only [ho]
        exact ⟨rmlMapperSpawn cfg.rmlmapperJar
        ⟨workdir, pathJoin workdir "mapping.ttl",
          pathJoin workdir ("output." ++ outputExt (requestSerialization cfg req)),
          requestSerialization cfg req,
          if jsTrim cfg.baseIri = "" then none else some (jsTrim cfg.baseIri)⟩,
        by simp⟩
      · simp only [ho]
        exact ⟨rmlMapperSpawn cfg.rmlmapperJar
        ⟨workdir, pathJoin workdir "mapping.ttl",
          pathJoin workdir ("output." ++ outputExt (requestSerialization cfg req)),
          requestSerialization cfg req,
          if jsTrim cfg.baseIri = "" then none else some (jsTrim cfg.baseIri)⟩,
        by simp⟩
  obtain ⟨call, htryev⟩ := htry
  have hfe : fetchWriteEvents workdir (normalized.zip env.fetchEvents) =
      fetchWriteEvents workdir l₁ ++
        (Event.fetchStart r.resourceUrl ::
          [Event.fileWrite (pathJoin workdir "mapping.ttl") c]) ++
        fetchWriteEvents workdir l₂ := by
    rw [hzip, fetchWriteEvents_append, fetchWriteEvents_cons]
    simp only [hfn, hok]
    simp [List.append_assoc]
  have hcore : (mapHandler cfg req env rmFails).1 =
      Event.mkWorkdir workdir ::
        ((tryBody cfg env (requestSerialization cfg req) normalized workdir).1 ++
          [Event.rmAttempt workdir (!rmFails)]) := by
    unfold mapHandler mapHandlerCore
    simp only [hval, hmk]
    simp
  refine ⟨by decide,
    Event.mkWorkdir workdir ::
      (fetchWriteEvents workdir l₁ ++ [Event.fetchStart r.resourceUrl]),
    fetchWriteEvents workdir l₂, [Event.rmAttempt workdir (!rmFails)], call, ?_⟩
  rw [hcore, htryev, hfe]
  simp [List.append_assoc]

/-- C10 witness: a concrete job with one resource named `mapping.ttl`:
the fetched body lands at `workdir/mapping.ttl` and the generated
mapping overwrites it before the engine is spawned. -/
theorem claim_C10_reservedFileNameOverwrite_witness :
    sanitizeFilename "mapping.ttl" "data.json" = "mapping.ttl" ∧
    ∃ evs1 evs2 evs3 call,
      (mapHandler ⟨"/opt/rmlmapper.jar", "nquads", "", ""⟩
        ⟨none, some "mappings: x", some [⟨some "https://example.com/m.json",
          some "mapping.ttl", some ⟨"https:", "example.com"⟩⟩]⟩
        ⟨some "/tmp/mapjob-1", [.response 200 (some .null)], .text "rml doc",
          false, "", .exited 0, [], some "out"⟩ false).1 =
        evs1 ++ Event.fileWrite (pathJoin "/tmp/mapjob-1" "mapping.ttl") "null" ::
          (evs2 ++ Event.fileWrite (pathJoin "/tmp/mapjob-1" "mapping.ttl") "rml doc" ::
            Event.engineSpawn call :: evs3) :=
  claim_C10_reservedFileNameOverwrite
    ⟨"/opt/rmlmapper.jar", "nquads", "", ""⟩
    ⟨none, some "mappings: x", some [⟨some "https://example.com/m.json",
      some "mapping.ttl", some ⟨"https:", "example.com"⟩⟩]⟩
    ⟨some "/tmp/mapjob-1", [.response 200 (some .null)], .text "rml doc",
      false, "", .exited 0, [], some "out"⟩ false
    [⟨"https://example.com/m.json", "mapping.ttl"⟩] "/tmp/mapjob-1"
    [] [] ⟨"https://example.com/m.json", "mapping.ttl"⟩ (.response 200 (some .null))
    "null" "rml doc" rfl rfl rfl rfl rfl rfl rfl rfl
